import Mathlib

/-
Verification of the esc RPN-calculator core: a shallow embedding of the
stack engine (esc/stack.py), history manager (esc/history.py), operation
dispatch (esc/commands.py), and self-test harness (esc/functest.py),
together with proofs about the embedded definitions.

Machine numbers are Python decimal.Decimal values, modelled here as a
coefficient/exponent pair with the context set up by
esc.__main__.setup_decimal_context (precision 12, ROUND_HALF_EVEN).
Only finite decimals are modelled; specials (NaN, infinities) do not
arise in the scenarios treated here.
-/

deriving instance DecidableEq for Except

namespace Esc

/-- consts.py: STACKDEPTH - maximum number of items on the stack. -/
def STACKDEPTH : Nat := 12

/-- consts.py: STACKWIDTH - maximum number of characters in one stack item. -/
def STACKWIDTH : Nat := 21

/-- consts.py / __main__.setup_decimal_context: significant digits of
decimal arithmetic. -/
def PRECISION : Nat := 12

/-- consts.py: TESTING - global flag, False outside EscMenu.test. -/
def TESTING : Bool := false

/-- Kinds of Python exceptions that flow through the esc core (oops.py plus
the built-in exceptions the code catches or raises). -/
inductive PyExcKind where
  | valueError (msg : String)
  | zeroDivisionError
  | invalidOperation
  | typeError (msg : String)
  | indexError
  | insufficientItems (number_required : Int) (msg : Option String)
  | functionExecution (msg : String)
  | functionProgramming (function_name : String) (key : String)
      (description : Option String) (problem : String)
  | programmingError (msg : String)
  | rollbackTransaction (status_message : Option String)
  | otherExc
deriving DecidableEq, Repr

/-- A raised Python exception together with its implicit-context chain
(`__context__`), outermost first.  functest._recursive_exception_instance
walks this chain. -/
structure Raised where
  top : PyExcKind
  context : List PyExcKind
deriving DecidableEq, Repr

/-- Raise an exception with no active exception being handled. -/
def raise0 (k : PyExcKind) : Raised := ⟨k, []⟩

/-- Raise an exception from inside an `except` block handling `prev`:
Python chains `prev` as the new exception's `__context__`. -/
def reraise (k : PyExcKind) (prev : Raised) : Raised := ⟨k, prev.top :: prev.context⟩

/-- Python exception classes usable as the `raises=` argument of a test
case (the ones esc's bundled functions use). -/
inductive ExcType where
  | valueError
  | zeroDivisionError
  | invalidOperation
  | typeError
  | indexError
  | insufficientItemsError
  | functionExecutionError
  | programmingError
  | escError
deriving DecidableEq, Repr

/-- Python `isinstance` on the modelled exception kinds, with esc's class
hierarchy from oops.py: InsufficientItemsError < FunctionExecutionError <
EscError, FunctionProgrammingError < ProgrammingError < EscError. -/
def isInstance : PyExcKind → ExcType → Bool
  | .valueError _, t => t == .valueError
  | .zeroDivisionError, t => t == .zeroDivisionError
  | .invalidOperation, t => t == .invalidOperation
  | .typeError _, t => t == .typeError
  | .indexError, t => t == .indexError
  | .insufficientItems _ _, t =>
      t == .insufficientItemsError || t == .functionExecutionError || t == .escError
  | .functionExecution _, t => t == .functionExecutionError || t == .escError
  | .functionProgramming _ _ _ _, t => t == .programmingError || t == .escError
  | .programmingError _, t => t == .programmingError || t == .escError
  | .rollbackTransaction _, _ => false
  | .otherExc, _ => false

/-! ## Decimal values

Python decimal.Decimal finite values, as used by esc under the context
installed by setup_decimal_context (prec = 12, rounding ROUND_HALF_EVEN).
A value is coeff * 10 ^ exp. -/

/-- A finite Python Decimal: coefficient (signed) and exponent. -/
structure Dec where
  coeff : Int
  exp : Int
deriving DecidableEq, Repr

/-- Fuelled digit counter for the auxiliary recursion. -/
def numDigitsAux : Nat → Nat → Nat
  | 0, _ => 0
  | fuel + 1, n => if n < 10 then 1 else numDigitsAux fuel (n / 10) + 1

/-- Number of decimal digits of a coefficient (`len(str(c))`; 1 for 0). -/
def numDigits (n : Nat) : Nat := numDigitsAux (n + 1) n

/-- Character for a single decimal digit. -/
def digitChar (d : Nat) : Char := Char.ofNat (48 + d)

/-- Fuelled digit-list builder for natToStr. -/
def natDigitsAux : Nat → Nat → List Char
  | 0, _ => []
  | fuel + 1, n => if n < 10 then [digitChar n] else natDigitsAux fuel (n / 10) ++ [digitChar (n % 10)]

/-- Decimal string of a natural number (Python str on a nonnegative int). -/
def natToStr (n : Nat) : String := ⟨natDigitsAux (n + 1) n⟩

/-- Decimal string of an integer (Python str on an int). -/
def intToStr (n : Int) : String :=
  if n < 0 then "-" ++ natToStr n.natAbs else natToStr n.natAbs

/-- Strip trailing zeros of the coefficient, raising the exponent
(`while coeff % 10 == 0: coeff //= 10; exp += 1`), fuelled. -/
def stripZerosAux : Nat → Nat → Int → Nat × Int
  | 0, c, e => (c, e)
  | fuel + 1, c, e => if c % 10 = 0 then stripZerosAux fuel (c / 10) (e + 1) else (c, e)

/-- decimal.Decimal.normalize: reduce to simplest form (zero becomes
exponent 0; otherwise strip trailing zeros of the coefficient).  The
values reaching it here always fit in the 12-digit precision, so the
rounding step of the Python implementation is the identity. -/
def Dec.normalize (d : Dec) : Dec :=
  if d.coeff = 0 then ⟨0, 0⟩
  else
    let (c, e) := stripZerosAux (numDigits d.coeff.natAbs) d.coeff.natAbs d.exp
    ⟨if d.coeff < 0 then -(c : Int) else (c : Int), e⟩

/-- decimal: `d == d.to_integral()` - the value is an integer. -/
def Dec.isIntegral (d : Dec) : Bool :=
  if 0 ≤ d.exp then true
  else d.coeff % ((10 : Int) ^ (-d.exp).toNat) = 0

/-- decimal.Decimal.quantize(Decimal(1)) on an integral value: rescale to
exponent 0; InvalidOperation (None here) when the coefficient would need
more than context.prec digits. -/
def Dec.quantizeToUnit (d : Dec) : Option Dec :=
  let c : Int :=
    if 0 ≤ d.exp then d.coeff * (10 : Int) ^ d.exp.toNat
    else d.coeff / (10 : Int) ^ (-d.exp).toNat
  if numDigits c.natAbs ≤ PRECISION then some ⟨c, 0⟩ else none

/-- stack.py StackItem._remove_exponent: remove exponent and trailing
zeros; keep scientific notation when the coefficient has too many digits
for quantize at the current precision. -/
def removeExponent (d : Dec) : Dec :=
  let retval := d.normalize
  if d.isIntegral then
    match d.quantizeToUnit with
    | some q => q
    | none => retval
  else retval

/-- decimal.Decimal.__str__ for a finite value (CPython _pydecimal,
eng=False): place the decimal point at `leftdigits` when no exponent is
required, else use scientific notation with one digit before the point. -/
def pyDecStr (d : Dec) : String :=
  let sign := if d.coeff < 0 then "-" else ""
  let digits := natToStr d.coeff.natAbs
  let ndig : Int := digits.length
  let leftdigits : Int := d.exp + ndig
  let dotplace : Int := if d.exp ≤ 0 ∧ leftdigits > -6 then leftdigits else 1
  let intpart :=
    if dotplace ≤ 0 then "0"
    else if ndig ≤ dotplace then digits ++ String.mk (List.replicate (dotplace - ndig).toNat '0')
    else String.mk (digits.data.take dotplace.toNat)
  let fracpart :=
    if dotplace ≤ 0 then "." ++ String.mk (List.replicate (-dotplace).toNat '0') ++ digits
    else if ndig ≤ dotplace then ""
    else "." ++ String.mk (digits.data.drop dotplace.toNat)
  let expPart :=
    if leftdigits = dotplace then ""
    else "E" ++ (if 0 ≤ leftdigits - dotplace then "+" else "-") ++ natToStr (leftdigits - dotplace).natAbs
  sign ++ intpart ++ fracpart ++ expPart

/-- str.replace of the exponent marker done by _string_repr_from_value
(replacing the one-character substring behaves as a character map). -/
def replaceEWithLower (s : String) : String :=
  ⟨s.data.map fun c => if c = 'E' then 'e' else c⟩

/-- decimal._fix at precision 12, ROUND_HALF_EVEN: round the coefficient
to at most PRECISION digits; on a carry into an extra digit, drop the
final zero and raise the exponent. -/
def fixCoeff (c : Nat) (e : Int) : Nat × Int :=
  let n := numDigits c
  if n ≤ PRECISION then (c, e)
  else
    let k := n - PRECISION
    let pow := 10 ^ k
    let q := c / pow
    let r := c % pow
    let half := 5 * 10 ^ (k - 1)
    let up := if half < r then true else if r < half then false else q % 2 = 1
    if up then
      if q + 1 = 10 ^ PRECISION then (10 ^ (PRECISION - 1), e + k + 1)
      else (q + 1, e + k)
    else (q, e + k)

/-- Exact-case exponent adjustment of division: while the exponent is
below the ideal exponent and the coefficient ends in 0, shift (fuelled). -/
def stripToIdealAux : Nat → Nat → Int → Int → Nat × Int
  | 0, c, e, _ => (c, e)
  | fuel + 1, c, e, ideal =>
      if e < ideal ∧ c % 10 = 0 then stripToIdealAux fuel (c / 10) (e + 1) ideal
      else (c, e)

/-- decimal.Decimal.__truediv__ on finite operands at precision 12
(CPython _pydecimal): long-divide to prec+1 digits, mark inexactness on
the final digit, then _fix rounds half-even to prec digits.  A zero
divisor raises DivisionByZero (a ZeroDivisionError subclass), or
InvalidOperation for 0/0. -/
def decDiv (a b : Dec) : Except PyExcKind Dec :=
  if b.coeff = 0 then
    if a.coeff = 0 then .error .invalidOperation else .error .zeroDivisionError
  else if a.coeff = 0 then
    .ok ⟨0, a.exp - b.exp⟩
  else
    let sign : Bool := decide (a.coeff < 0) ^^ decide (b.coeff < 0)
    let op1 := a.coeff.natAbs
    let op2 := b.coeff.natAbs
    let shift : Int := (numDigits op2 : Int) - (numDigits op1 : Int) + PRECISION + 1
    let exp := a.exp - b.exp - shift
    let (coeff, remainder) :=
      if 0 ≤ shift then ((op1 * 10 ^ shift.toNat) / op2, (op1 * 10 ^ shift.toNat) % op2)
      else (op1 / (op2 * 10 ^ (-shift).toNat), op1 % (op2 * 10 ^ (-shift).toNat))
    let (coeff, exp) :=
      if remainder ≠ 0 then
        (if coeff % 5 = 0 then coeff + 1 else coeff, exp)
      else
        let ideal := a.exp - b.exp
        stripToIdealAux (numDigits coeff) coeff exp ideal
    let (c, e) := fixCoeff coeff exp
    .ok ⟨if sign then -(c : Int) else (c : Int), e⟩

/-- Python `==` on two finite Decimals: numeric comparison of
coeff * 10 ^ exp, independent of representation. -/
def Dec.numEq (a b : Dec) : Bool :=
  if a.exp ≤ b.exp then a.coeff == b.coeff * (10 : Int) ^ (b.exp - a.exp).toNat
  else a.coeff * (10 : Int) ^ (a.exp - b.exp).toNat == b.coeff

/-- Exact rational value of a finite Decimal (used by the close-comparison
of test cases; the float conversion Python performs first is exact for
the magnitudes involved and is not modelled separately). -/
def Dec.toRat (d : Dec) : Rat :=
  if 0 ≤ d.exp then ((d.coeff * (10 : Int) ^ d.exp.toNat : Int) : Rat)
  else (d.coeff : Rat) / ((10 : Int) ^ (-d.exp).toNat : Rat)

/-- math.isclose with the default rel_tol=1e-9, abs_tol=0. -/
def mathIsClose (x y : Rat) : Bool :=
  decide (|x - y| ≤ max ((1 / 10 ^ 9 : Rat) * max |x| |y|) 0)

/-! ## StackItem (stack.py) -/

/-- stack.py StackItem: one stack slot - the entry flag, the Decimal
representation (None while the item is still being typed), and the string
representation. -/
structure StackItem where
  is_entered : Bool
  decimal : Option Dec
  string : String
deriving DecidableEq, Repr

/-- StackItem._string_repr_from_value:
`str(_remove_exponent(decimal.normalize())).replace('E', 'e')`. -/
def stringReprFromValue (d : Dec) : String :=
  replaceEWithLower (pyDecStr (removeExponent d.normalize))

/-- StackItem._init_partial: a partial item from the first character the
user typed. -/
def StackItem.initPartialEntry (firstchar : String) : StackItem :=
  ⟨false, none, firstchar⟩

/-- StackItem._init_full: an item created whole from a Decimal value. -/
def StackItem.initFull (decval : Dec) : StackItem :=
  ⟨true, some decval, stringReprFromValue decval⟩

/-- StackItem.add_character: append to the running string unless
STACKWIDTH is reached (legal only while not entered). -/
def StackItem.add_character (si : StackItem) (nextchar : String) : Bool × StackItem :=
  if si.string.length < STACKWIDTH then (true, { si with string := si.string ++ nextchar })
  else (false, si)

/-- Python decimal-literal parser used by Decimal(str): optional sign,
integer and/or fraction digits, optional signed exponent.  Modelled from
the numeric-string grammar of the decimal module; splits at the first
point/exponent marker. -/
def splitOnExpAux : List Char → List Char → List Char × Option (List Char)
  | [], acc => (acc.reverse, none)
  | c :: rest, acc =>
      if c = 'e' ∨ c = 'E' then (acc.reverse, some rest)
      else splitOnExpAux rest (c :: acc)

/-- Split a leading sign character off a literal. -/
def parseSign : List Char → Bool × List Char
  | '-' :: r => (true, r)
  | '+' :: r => (false, r)
  | cs => (false, cs)

/-- Split a literal at the first decimal point. -/
def splitPointAux : List Char → List Char → List Char × Option (List Char)
  | [], acc => (acc.reverse, none)
  | c :: rest, acc =>
      if c = '.' then (acc.reverse, some rest)
      else splitPointAux rest (c :: acc)

/-- Numeric value of a digit list. -/
def digitsVal (cs : List Char) : Nat :=
  cs.foldl (fun a c => a * 10 + (c.toNat - 48)) 0

/-- Decimal(string): None models decimal.InvalidOperation on a malformed
literal. -/
def parseDec (s : String) : Option Dec :=
  let (neg, cs) := parseSign s.data
  let (mant, expo) := splitOnExpAux cs []
  let (ip, fpOpt) := splitPointAux mant []
  let fp := fpOpt.getD []
  if ip.all Char.isDigit ∧ fp.all Char.isDigit ∧ (ip ≠ [] ∨ fp ≠ []) then
    let c : Nat := digitsVal (ip ++ fp)
    let signedC : Int := if neg then -(c : Int) else (c : Int)
    match expo with
    | none => some ⟨signedC, -(fp.length : Int)⟩
    | some ecs =>
        let (eneg, eds) := parseSign ecs
        if eds ≠ [] ∧ eds.all Char.isDigit then
          let ev : Int := digitsVal eds
          some ⟨signedC, (if eneg then -ev else ev) - (fp.length : Int)⟩
        else none
  else none

/-- StackItem.finish_entry: parse the accumulated string; on success set
the Decimal value, recompute the canonical string and mark entered; on
failure leave the item unchanged and report False. -/
def StackItem.finish_entry (si : StackItem) : Bool × StackItem :=
  match parseDec si.string with
  | none => (false, si)
  | some d => (true, ⟨true, some d, stringReprFromValue d⟩)

/-- StackItem.__eq__ via __dict__ comparison: entry flags and strings
compare exactly, Decimal values compare numerically (Python ==). -/
def pyEqOptDec : Option Dec → Option Dec → Bool
  | none, none => true
  | some a, some b => a.numEq b
  | _, _ => false

/-- Python == on StackItems (__dict__ equality). -/
def StackItem.pyEq (a b : StackItem) : Bool :=
  a.is_entered == b.is_entered && pyEqOptDec a.decimal b.decimal && a.string == b.string

/-! ## StackState (stack.py) -/

/-- stack.py StackState: the stack itself, the operation log, the stack
pointer and the editing flag (the fields of __dict__, which is exactly
what memento() deep-copies).  The editing_last_item property setter only
drives the status bar, an external observer, so the plain field models
it. -/
structure StackState where
  s : List StackItem
  operation_history : List (Option String)
  stack_posn : Int
  editing_last_item : Bool
deriving DecidableEq, Repr

/-- StackState.__init__. -/
def StackState.initial : StackState := ⟨[], [], -1, false⟩

/-- A memento is a deep copy of the engine's __dict__. -/
abbrev Memento := StackState

/-- StackState.memento. -/
def StackState.memento (ss : StackState) : Memento := ss

/-- StackState.restore: overwrite __dict__ from the memento, then re-run
the editing_last_item property setter (whose only effect is on the
external status bar). -/
def StackState.restore (_ss : StackState) (m : Memento) : StackState := m

/-- StackState.has_push_space: `STACKDEPTH >= len(self.s) + spaces`. -/
def StackState.has_push_space (ss : StackState) (spaces : Int) : Bool :=
  decide ((STACKDEPTH : Int) ≥ (ss.s.length : Int) + spaces)

/-- StackState.free_stack_spaces: `STACKDEPTH - stack_posn - 1`. -/
def StackState.free_stack_spaces (ss : StackState) : Int :=
  (STACKDEPTH : Int) - ss.stack_posn - 1

/-- StackState.as_decimal: the stack as a list of its Decimal values. -/
def StackState.as_decimal (ss : StackState) : List (Option Dec) :=
  ss.s.map (·.decimal)

/-- StackState.record_operation: append a history entry. -/
def StackState.record_operation (ss : StackState) (description : Option String) : StackState :=
  { ss with operation_history := ss.operation_history ++ [description] }

/-- An element of the iterable given to StackState.push: a Decimal or an
already-built StackItem. -/
inductive PushArg where
  | item (si : StackItem)
  | dec (d : Dec)
deriving DecidableEq, Repr

/-- The StackItem a push argument turns into. -/
def pushArgItem : PushArg → StackItem
  | .item si => si
  | .dec d => StackItem.initFull d

/-- StackState.push: fail without mutating when capacity would be
exceeded; otherwise record the description (when given), append the
items, and advance the stack pointer. -/
def StackState.push (ss : StackState) (vals : List PushArg)
    (description : Option String := none) : Bool × StackState :=
  if ¬ ss.has_push_space (vals.length : Int) then (false, ss)
  else
    let ss := match description with
      | some _ => ss.record_operation description
      | none => ss
    (true, { ss with s := ss.s ++ vals.map pushArgItem,
                     stack_posn := ss.stack_posn + vals.length })

/-- StackState.pop: decrement the stack pointer first (when not
retaining), then return None if too few items, the empty list for
num == 0 (the special case for `s[:-0]`), and otherwise the final slice,
removing it unless retaining. -/
def StackState.pop (ss : StackState) (num : Nat := 1) (retain : Bool := false) :
    Option (List StackItem) × StackState :=
  let ss := if ¬ retain then { ss with stack_posn := ss.stack_posn - (num : Int) } else ss
  if ss.s.length < num then (none, ss)
  else if num = 0 then (some [], ss)
  else
    let slice := ss.s.drop (ss.s.length - num)
    if ¬ retain then (some slice, { ss with s := ss.s.take (ss.s.length - num) })
    else (some slice, ss)

/-- StackState.last_n_items: last n items; [] for 0; the whole stack
(shallow copy) for -1. -/
def StackState.last_n_items (ss : StackState) (n : Int) : List StackItem :=
  if n = -1 then ss.s
  else if n = 0 then []
  else ss.s.drop (ss.s.length - n.toNat)

/-- StackState.clear. -/
def StackState.clear (ss : StackState) : StackState :=
  { ss with s := [], stack_posn := -1, editing_last_item := false }

/-- Python == on lists of StackItems (elementwise). -/
def pyEqItems (xs ys : List StackItem) : Bool :=
  xs.length == ys.length && (List.zip xs ys).all fun p => p.1.pyEq p.2

/-- Python == on StackStates / mementos (__dict__ equality, with Decimal
values inside items comparing numerically). -/
def StackState.pyEq (a b : StackState) : Bool :=
  pyEqItems a.s b.s && a.operation_history == b.operation_history
    && a.stack_posn == b.stack_posn && a.editing_last_item == b.editing_last_item

/-! ## HistoricalStack (history.py) -/

/-- history.py HistoricalStack: the undo and redo checkpoint lists (the
end of each list is the Python list's end, where append and pop act). -/
structure HistoricalStack where
  undo_stack : List Memento
  redo_stack : List Memento
deriving DecidableEq, Repr

/-- HistoricalStack.__init__ (the module-global hs starts empty). -/
def HistoricalStack.initial : HistoricalStack := ⟨[], []⟩

/-- HistoricalStack.checkpoint_stack: clear the redo list if non-empty;
append the memento unless the undo list's top already equals it
(Python !=, i.e. numeric comparison inside items). -/
def HistoricalStack.checkpoint_stack (h : HistoricalStack) (ss : StackState) : HistoricalStack :=
  let h := if h.redo_stack ≠ [] then { h with redo_stack := [] } else h
  match h.undo_stack.getLast? with
  | none => { h with undo_stack := h.undo_stack ++ [ss.memento] }
  | some last =>
      if ¬ last.pyEq ss.memento then { h with undo_stack := h.undo_stack ++ [ss.memento] }
      else h

/-- HistoricalStack.undo: pop the undo top, save the current memento on
the redo list, restore; False when no undo state exists. -/
def HistoricalStack.undo (h : HistoricalStack) (ss : StackState) :
    Bool × HistoricalStack × StackState :=
  match h.undo_stack.getLast? with
  | some m => (true, ⟨h.undo_stack.dropLast, h.redo_stack ++ [ss.memento]⟩, ss.restore m)
  | none => (false, h, ss)

/-- HistoricalStack.redo: symmetric to undo, using the redo list. -/
def HistoricalStack.redo (h : HistoricalStack) (ss : StackState) :
    Bool × HistoricalStack × StackState :=
  match h.redo_stack.getLast? with
  | some m => (true, ⟨h.undo_stack ++ [ss.memento], h.redo_stack.dropLast⟩, ss.restore m)
  | none => (false, h, ss)

/-- Python sequence indexing (non-negative from the front, negative from
the back; None models IndexError). -/
def pyIndex (n : Nat) (i : Int) : Option Nat :=
  if 0 ≤ i then (if i < (n : Int) then some i.toNat else none)
  else (if 0 ≤ i + (n : Int) then some (i + (n : Int)).toNat else none)

/-- StackState.enter_number: always checkpoint the (module-global)
history first; then, if editing, finish the entry in place - clearing
the editing flag on success, raising ValueError with a message naming
the running operation on a malformed value - and otherwise report False
("bos was already finished"). -/
def StackState.enter_number (hs : HistoricalStack) (ss : StackState)
    (running_op : Option String := none) :
    HistoricalStack × Except PyExcKind Bool × StackState :=
  let hs := hs.checkpoint_stack ss
  if ss.editing_last_item then
    match pyIndex ss.s.length ss.stack_posn with
    | none => (hs, .error .indexError, ss)
    | some i =>
      match ss.s.get? i with
      | none => (hs, .error .indexError, ss)
      | some si =>
        match si.finish_entry with
        | (true, siNew) =>
            (hs, .ok true, { ss with s := ss.s.set i siNew, editing_last_item := false })
        | (false, _) =>
            let msg := match running_op with
              | some op => "Cannot run \"" ++ op ++ "\": invalid value on bos."
              | none => "Bottom of stack is not a valid number."
            (hs, .error (.valueError msg), ss)
  else (hs, .ok false, ss)

/-! ## Registry (registers.py), as threaded through operation execution -/

/-- registers.py Registry: named registers holding StackItems; only
threaded through execution here. -/
structure Registry where
  registers : List (String × StackItem)
deriving DecidableEq, Repr

/-- An empty registry. -/
def Registry.initial : Registry := ⟨[]⟩

/-! ## EscOperation (commands.py) -/

/-- A value a plugin function may return to be pushed.  `bad` stands for
any Python value Decimal() cannot coerce (its str is unconstrained). -/
inductive RetVal where
  | dec (d : Dec)
  | bad
deriving DecidableEq, Repr

/-- str() on a raw returned value, as interpolated into log messages. -/
def RetVal.str : RetVal → String
  | .dec d => pyDecStr d
  | .bad => "<value>"

/-- The shape of a plugin function's return: None, a single value, or an
iterable of values (_store_results checks `hasattr(..., '__iter__')`). -/
inductive FuncRet where
  | pynone
  | single (v : RetVal)
  | values (vs : List RetVal)
deriving DecidableEq, Repr

/-- The tuple `(return_values,)`-wrapping plus listing of _store_results:
a non-iterable single value becomes a one-element tuple, and None (not
iterable) becomes (None,), which is not Decimal-coercible. -/
def toRetList : FuncRet → List RetVal
  | .pynone => [.bad]
  | .single v => [v]
  | .values vs => vs

/-- util.decimalize_iterable: convert each element to Decimal, raising
(TypeError / decimal.InvalidOperation, both caught together by callers)
at the first non-coercible element. -/
def decimalizeRetVals : List RetVal → Except PyExcKind (List Dec)
  | [] => .ok []
  | .dec d :: rest => (decimalizeRetVals rest).map (d :: ·)
  | .bad :: _ => .error (.typeError "conversion to Decimal is not supported")

/-- oops.py FunctionProgrammingError.__init__ accepts (function_name,
key, description, problem, wrapped_exception), but every construction in
commands.py and functest.py passes the keyword argument `operation`
instead, so each such call site raises TypeError before any
FunctionProgrammingError exists. -/
def fpeCallSite (_problem : String) : PyExcKind :=
  .typeError "FunctionProgrammingError.__init__ got an unexpected keyword argument 'operation'"

/-- The log_as specification of an operation (commands.py @Operation).
A .format template and a callable are modelled as the functions they
denote on the interpolated argument/return strings. -/
inductive LogSpec where
  | noSpec
  | unop
  | binop
  | fmt (f : List String → String)
  | viaCallable (f : List StackItem → List RetVal → Registry → String)

/-- commands.py EscOperation: an executable leaf of the dispatch tree.
The bound function receives the argument slice and the registry. -/
structure EscOperation where
  key : String
  description : Option String
  pop : Int
  push : Int
  retain : Bool
  log_as : LogSpec
  simulate_allowed : Bool
  function : List StackItem → Registry → Except Raised FuncRet

/-- str() of the description attribute as interpolated by UNOP logging
(None prints as "None"). -/
def descStr : Option String → String
  | some d => d
  | none => "None"

/-- EscOperation._describe_operation: build the history line from the
log_as policy; UNOP/BINOP with too few arguments or results hit the
broken FunctionProgrammingError construction (TypeError, chaining the
IndexError being handled). -/
def EscOperation.describe_operation (op : EscOperation) (args : List StackItem)
    (retvals : List RetVal) (rg : Registry) : Except Raised (Option String) :=
  match op.log_as with
  | .noSpec => .ok op.description
  | .unop =>
      match args, retvals with
      | a0 :: _, r0 :: _ =>
          .ok (some (descStr op.description ++ " " ++ a0.string ++ " = " ++ r0.str))
      | _, _ =>
          .error ⟨fpeCallSite "requested unary operator logging (UNOP) but did not request any values from the stack", [.indexError]⟩
  | .binop =>
      match args, retvals with
      | a0 :: a1 :: _, r0 :: _ =>
          .ok (some (a0.string ++ " " ++ op.key ++ " " ++ a1.string ++ " = " ++ r0.str))
      | _, _ =>
          .error ⟨fpeCallSite "requested binary operator logging (BINOP) but did not request two values from the stack", [.indexError]⟩
  | .fmt f => .ok (some (f (args.map (·.string) ++ retvals.map (·.str))))
  | .viaCallable f => .ok (some (f args retvals rg))

/-- EscOperation._insufficient_items_on_stack: an InsufficientItemsError
whose message names the operation's key and the required count. -/
def EscOperation.insufficient_items_on_stack (op : EscOperation)
    (pops_requested : Option Int := none) : PyExcKind :=
  let n := pops_requested.getD op.pop
  let pops := if n = 1 then "item" else "items"
  .insufficientItems n
    (some ("'" ++ op.key ++ "' needs at least " ++ intToStr n ++ " " ++ pops ++ " on stack."))

/-- The "stack is too full" message of _retrieve_arguments. -/
def tooFullMsg (op : EscOperation) (ss : StackState) : String :=
  let num_short := op.push - op.pop - ss.free_stack_spaces
  let spaces := if num_short = 1 then "space" else "spaces"
  "'" ++ op.key ++ "': stack is too full (short " ++ intToStr num_short ++ " " ++ spaces ++ ")."

/-- EscOperation._retrieve_arguments: finish any pending entry (a
ValueError becomes a FunctionExecutionError), verify push space unless
pop == -1, then take the whole stack (clearing it unless retaining) or
pop the declared number of items. -/
def EscOperation.retrieve_arguments (op : EscOperation) (hs : HistoricalStack)
    (ss : StackState) : HistoricalStack × Except Raised (List StackItem) × StackState :=
  match StackState.enter_number hs ss (some op.key) with
  | (hs, .error (.valueError m), ss) =>
      (hs, .error ⟨.functionExecution m, [.valueError m]⟩, ss)
  | (hs, .error e, ss) => (hs, .error (raise0 e), ss)
  | (hs, .ok _, ss) =>
    if ¬ (ss.has_push_space (op.push - op.pop)) ∧ op.pop ≠ -1 then
      (hs, .error (raise0 (.functionExecution (tooFullMsg op ss))), ss)
    else if op.pop = -1 then
      (hs, .ok ss.s, if ¬ op.retain then ss.clear else ss)
    else
      match ss.pop op.pop.toNat op.retain with
      | (none, ss) => (hs, .error (raise0 (op.insufficient_items_on_stack)), ss)
      | (some args, ss) =>
          if args.isEmpty ∧ op.pop ≠ 0 then
            (hs, .error (raise0 (op.insufficient_items_on_stack)), ss)
          else (hs, .ok args, ss)

/-- EscOperation._store_results: when results are due, coerce the raw
return (a failure hits the broken FunctionProgrammingError construction:
TypeError chaining the conversion error), then push them with the
generated description (the push's boolean result is discarded); when
nothing is due, record the generated description alone. -/
def EscOperation.store_results (op : EscOperation) (ss : StackState)
    (args : List StackItem) (ret : FuncRet) (rg : Registry) : Except Raised StackState :=
  if 0 < op.push ∨ (op.push = -1 ∧ ret ≠ .pynone) then
    let rvs := toRetList ret
    match decimalizeRetVals rvs with
    | .error e =>
        .error ⟨fpeCallSite "returned a value that cannot be converted to a Decimal", [e]⟩
    | .ok ds =>
      match op.describe_operation args rvs rg with
      | .error r => .error r
      | .ok desc => .ok (ss.push (ds.map PushArg.dec) desc).2
  else
    match op.describe_operation args [] rg with
    | .error r => .error r
    | .ok desc => .ok (ss.record_operation desc)

/-- The body of EscOperation.execute inside the transaction: retrieve
arguments, invoke the bound function translating domain errors
(ValueError, ZeroDivisionError, decimal.InvalidOperation,
InsufficientItemsError) into user-facing FunctionExecutionErrors, then
store the results. -/
def EscOperation.executeBody (op : EscOperation) (hs : HistoricalStack)
    (ss : StackState) (rg : Registry) : HistoricalStack × Except Raised StackState :=
  match op.retrieve_arguments hs ss with
  | (hs, .error r, _ss) => (hs, .error r)
  | (hs, .ok args, ss) =>
    match op.function args rg with
    | .error r =>
        match r.top with
        | .valueError _ =>
            (hs, .error (reraise (.functionExecution "Domain error! Stack unchanged.") r))
        | .zeroDivisionError =>
            (hs, .error (reraise (.functionExecution "Sorry, division by zero is against the law.") r))
        | .invalidOperation =>
            (hs, .error (reraise (.functionExecution "That operation is not defined by the rules of arithmetic.") r))
        | .insufficientItems n _ =>
            (hs, .error (reraise (op.insufficient_items_on_stack (some n)) r))
        | _ => (hs, .error r)
    | .ok ret =>
        match op.store_results ss args ret rg with
        | .error r => (hs, .error r)
        | .ok ss => (hs, .ok ss)

/-- EscOperation.execute: run the body inside StackState.transaction - a
memento is taken on entry; RollbackTransaction restores it and is
swallowed (its message goes to the status bar); any other exception
restores it and re-raises. -/
def EscOperation.execute (op : EscOperation) (hs : HistoricalStack) (ss : StackState)
    (rg : Registry) : HistoricalStack × Except Raised Unit × StackState :=
  let checkpoint := ss.memento
  match op.executeBody hs ss rg with
  | (hs, .ok ssNew) => (hs, .ok (), ssNew)
  | (hs, .error r) =>
      match r.top with
      | .rollbackTransaction _ => (hs, .ok (), ss.restore checkpoint)
      | _ => (hs, .error r, ss.restore checkpoint)

/-! ## The @Operation decorator's binding protocol (commands.py) -/

/-- inspect.Parameter.kind, restricted to the kinds the binding protocol
distinguishes. -/
inductive ParmKind where
  | positionalOrKeyword
  | varPositional
deriving DecidableEq, Repr

/-- A declared parameter of a plugin function. -/
structure Parm where
  name : String
  kind : ParmKind
deriving DecidableEq, Repr

/-- `[i for i in parms if i.kind == Parameter.VAR_POSITIONAL]`. -/
def bindAllOf (parms : List Parm) : List Parm :=
  parms.filter (·.kind == .varPositional)

/-- `[i for i in parms if i.name not in ('registry', 'testing')]`. -/
def stackParmsOf (parms : List Parm) : List Parm :=
  parms.filter fun p => !(p.name == "registry" || p.name == "testing")

/-- `pop = len(stack_parms) if not bind_all else -1`. -/
def computedPop (parms : List Parm) : Int :=
  if bindAllOf parms = [] then ((stackParmsOf parms).length : Int) else -1

/-- A value bound to one parameter of a plugin function. -/
inductive BoundVal where
  | item (si : StackItem)
  | strVal (s : String)
  | dec (d : Option Dec)
  | registryVal (rg : Registry)
  | testingVal (b : Bool)
deriving DecidableEq, Repr

/-- Python str.endswith on the underlying character sequences. -/
def pyEndsWith (s p : String) : Bool := p.data.isSuffixOf s.data

/-- _bind_stack_parm: the `_stackitem` suffix binds the whole StackItem,
`_str` binds the display string, otherwise the Decimal value. -/
def bindStackParm (stack_item : StackItem) (parm : Parm) : BoundVal :=
  if pyEndsWith parm.name "_stackitem" then .item stack_item
  else if pyEndsWith parm.name "_str" then .strVal stack_item.string
  else .dec stack_item.decimal

/-- The decorator's wrapper: a varargs parameter receives the entire
argument slice positionally; otherwise the named parameters are bound by
keyword, zipped against the trailing slice of the given stack in
declaration order; the reserved names registry and testing are added by
keyword when declared.  (When there are no stack parameters the Python
slice `stack[-0:]` is the whole stack, but the zip against an empty
parameter list yields the same empty binding.) -/
def wrapper (parms : List Parm)
    (func : List BoundVal → List (String × BoundVal) → Except Raised FuncRet)
    (stack : List StackItem) (rg : Registry) : Except Raised FuncRet :=
  let bind_all := bindAllOf parms
  let stack_parms := stackParmsOf parms
  let positional_binding :=
    match bind_all with
    | ba :: _ => stack.map fun si => bindStackParm si ba
    | [] => []
  let keyword_binding :=
    match bind_all with
    | _ :: _ => []
    | [] =>
        let stack_slice := stack.drop (stack.length - stack_parms.length)
        (List.zip stack_slice stack_parms).map fun p => (p.2.name, bindStackParm p.1 p.2)
  let keyword_binding :=
    keyword_binding ++
      (if parms.any (·.name == "registry") then [("registry", BoundVal.registryVal rg)] else [])
  let keyword_binding :=
    keyword_binding ++
      (if parms.any (·.name == "testing") then [("testing", BoundVal.testingVal TESTING)] else [])
  func positional_binding keyword_binding

/-- Keyword lookup in a binding (Python dict access in the called
function's frame). -/
def lookupKw (kw : List (String × BoundVal)) (n : String) : Option BoundVal :=
  (kw.find? (·.1 == n)).map (·.2)

/-! ## The self-test harness (functest.py) -/

/-- functest.py TestCase: declared before stack, expected after stack or
expected exception type, and the close-comparison flag. -/
structure TestCase where
  before : List RetVal
  after : Option (List RetVal)
  raises : Option ExcType
  close : Bool

/-- Python == between a list of stack Decimal values (None for an
unentered item) and a list of expected Decimals (elementwise numeric
comparison; a None never equals a Decimal). -/
def pyEqStacks : List (Option Dec) → List Dec → Bool
  | [], [] => true
  | some a :: xs, b :: ys => a.numEq b && pyEqStacks xs ys
  | _, _ => false

/-- TestCase._equal: exact Python == comparison, or math.isclose
elementwise with a length check when close is set.  (isclose on a None
value would raise in Python; no modelled test reaches that case.) -/
def TestCase.equalCheck (tc : TestCase) (stack : List (Option Dec)) (expected : List Dec) : Bool :=
  if tc.close then
    stack.length == expected.length &&
      (List.zip stack expected).all fun p =>
        match p.1 with
        | some d => mathIsClose d.toRat p.2.toRat
        | none => false
  else pyEqStacks stack expected

/-- Python truthiness of the after attribute (None and the empty list are
both falsy). -/
def truthyAfter : Option (List RetVal) → Bool
  | none => false
  | some l => !l.isEmpty

/-- functest._recursive_exception_instance: the exception or any
exception in its context chain is an instance of the type. -/
def recursiveExcInstance (e : Raised) (t : ExcType) : Bool :=
  (e.top :: e.context).any fun k => isInstance k t

/-- The StackState a test case starts from: a fresh engine with the
coerced before values pushed (the push's boolean result is unchecked). -/
def tcStartState (start_dec : List Dec) : StackState :=
  (StackState.initial.push (start_dec.map PushArg.dec) none).2

/-- TestCase.execute: reject (via _oops_it) a truthy after combined with
raises; coerce before/after; run the operation's real execute on a fresh
engine; compare the outcome against raises or after.  Every _oops_it
call constructs FunctionProgrammingError with the keyword `operation`,
which its __init__ does not accept, so each failure path raises
TypeError instead. -/
def TestCase.executeCase (tc : TestCase) (op : EscOperation) (hs : HistoricalStack) :
    Except Raised Unit :=
  if truthyAfter tc.after ∧ tc.raises.isSome then
    .error (raise0 (fpeCallSite "included both 'after' and 'raises' clauses (only one is allowed)"))
  else
    match decimalizeRetVals tc.before with
    | .error e =>
        .error ⟨fpeCallSite "tried to place a non-decimal value on a test stack", [e]⟩
    | .ok start_dec =>
      let endRes : Except PyExcKind (List Dec) :=
        match tc.after with
        | none => .ok []
        | some a => decimalizeRetVals a
      match endRes with
      | .error e =>
          .error ⟨fpeCallSite "tried to place a non-decimal value on a test stack", [e]⟩
      | .ok end_dec =>
        let ss := tcStartState start_dec
        match op.execute hs ss Registry.initial with
        | (_, .error e, _) =>
            match tc.raises with
            | none =>
                .error ⟨fpeCallSite "failed a self-test: an exception was raised and was not listed as the exception type in a raises parameter", e.top :: e.context⟩
            | some t =>
                if recursiveExcInstance e t then .ok ()
                else
                  .error ⟨fpeCallSite "failed a self-test: an exception was raised and was not listed as the exception type in a raises parameter", e.top :: e.context⟩
        | (_, .ok _, ssAfter) =>
            match tc.raises with
            | some _ =>
                .error (raise0 (fpeCallSite "failed a self-test: the expected exception was not raised"))
            | none =>
                if tc.equalCheck ssAfter.as_decimal end_dec then .ok ()
                else
                  .error (raise0 (fpeCallSite "failed a self-test: Expected the after stack, but got a different final stack"))

/-! ## Concrete operations from functions.py used in the scenarios -/

/-- The parameter list of functions.divide(sos, bos). -/
def divideParms : List Parm :=
  [⟨"sos", .positionalOrKeyword⟩, ⟨"bos", .positionalOrKeyword⟩]

/-- The body of functions.divide: `return sos / bos` on the two Decimal
keyword bindings (Decimal division at the context precision). -/
def divideFunc : List BoundVal → List (String × BoundVal) → Except Raised FuncRet :=
  fun _pos kw =>
    match lookupKw kw "sos", lookupKw kw "bos" with
    | some (.dec (some a)), some (.dec (some b)) =>
        match decDiv a b with
        | .ok q => .ok (.single (.dec q))
        | .error k => .error (raise0 k)
    | _, _ => .error (raise0 .otherExc)

/-- The '/' operation as registered by
`@Operation('/', menu=main_menu, push=1, log_as=BINOP)`. -/
def divideOp : EscOperation :=
  { key := "/", description := none, pop := computedPop divideParms, push := 1,
    retain := false, log_as := .binop, simulate_allowed := true,
    function := wrapper divideParms divideFunc }

/-! ## Concrete states and operations used by witnesses -/

/-- The engine after pushing 4 and then 6 onto a fresh stack. -/
def ss8 : StackState :=
  ((StackState.initial.push [.dec ⟨4, 0⟩] none).2.push [.dec ⟨6, 0⟩] none).2

/-- A full engine: twelve entered items of value 1. -/
def ssFull : StackState :=
  ⟨List.replicate 12 (StackItem.initFull ⟨1, 0⟩), [], 11, false⟩

/-- A retaining unary operation that returns one value (pop 1, push 1,
retain): the shape of an operation whose pre-check cannot account for
the retained input. -/
def retainOp : EscOperation :=
  { key := "Y", description := some "retain demo", pop := 1, push := 1,
    retain := true, log_as := .noSpec, simulate_allowed := true,
    function := fun _ _ => .ok (.single (.dec ⟨5, 0⟩)) }

/-- An operation whose bound function always raises (an arbitrary,
unmodelled exception). -/
def alwaysRaisesOp : EscOperation :=
  { key := "E", description := some "raiser", pop := 0, push := 0,
    retain := false, log_as := .noSpec, simulate_allowed := true,
    function := fun _ _ => .error (raise0 .otherExc) }

/-- An operation whose bound function raises ZeroDivisionError. -/
def zeroDivOp : EscOperation :=
  { key := "Z", description := some "zero divider", pop := 0, push := 0,
    retain := false, log_as := .noSpec, simulate_allowed := true,
    function := fun _ _ => .error (raise0 .zeroDivisionError) }

/-- A no-operation: pops nothing, pushes nothing, succeeds. -/
def noopOp : EscOperation :=
  { key := "N", description := some "noop", pop := 0, push := 0,
    retain := false, log_as := .noSpec, simulate_allowed := true,
    function := fun _ _ => .ok .pynone }

/-- A constant operation: pops nothing, pushes one value 5. -/
def constFiveOp : EscOperation :=
  { key := "C", description := some "the constant five", pop := 0, push := 1,
    retain := false, log_as := .noSpec, simulate_allowed := true,
    function := fun _ _ => .ok (.single (.dec ⟨5, 0⟩)) }

/-- A sequence of push(vals, description) calls applied in order. -/
def pushSeq (ss : StackState) : List (List PushArg × Option String) → StackState
  | [] => ss
  | (vals, d) :: rest => pushSeq (ss.push vals d).2 rest

/-! ## Theorems -/

/-- Claim C8: from an empty stack, pushing 4 then 6 and executing the
divide operation (key '/') succeeds, leaves the stack holding exactly
the single value 0.666666666667 (the quotient at the 12-significant-
digit context precision, displayed with that canonical string), and
appends exactly the line "4 / 6 = 0.666666666667" to the operation
log. -/
theorem C8_divide_scenario :
    (divideOp.execute HistoricalStack.initial ss8 Registry.initial).2.1 = .ok () ∧
    (divideOp.execute HistoricalStack.initial ss8 Registry.initial).2.2.s =
      [⟨true, some ⟨666666666667, -12⟩, "0.666666666667"⟩] ∧
    (divideOp.execute HistoricalStack.initial ss8 Registry.initial).2.2.operation_history =
      [some "4 / 6 = 0.666666666667"] := by
  decide

/-- Claim C2, counterexample: popping one item from an empty engine
returns the None sentinel but decrements stack_posn from -1 to -2, so
the engine is not left exactly as it was before the call. -/
theorem C2_pop_counterexample :
    (StackState.initial.pop 1 false).1 = none ∧
    (StackState.initial.pop 1 false).2 ≠ StackState.initial := by
  decide

/-- Claim C2, amended: pop(n) with retain=False and n greater than the
current length returns the None failure sentinel and leaves the items
list, the operation history, and the editing flag unchanged, but the
stack-position counter stack_posn has been decremented by n. -/
theorem C2_pop_amended (ss : StackState) (n : Nat) (hn : ss.s.length < n) :
    ss.pop n false = (none, { ss with stack_posn := ss.stack_posn - (n : Int) }) := by
  unfold StackState.pop
  simp [hn]

/-- Witness for C2_pop_amended at the empty engine and n = 1. -/
theorem C2_pop_amended_witness :
    StackState.initial.s.length < 1 ∧
    StackState.initial.pop 1 false =
      (none, { StackState.initial with stack_posn := -2 }) := by
  refine ⟨by decide, ?_⟩
  rw [C2_pop_amended StackState.initial 1 (by decide)]
  decide

/-- Claim C3: on this snapshot a self-test mismatch does not raise a
FunctionProgrammingError.  At the failing input from the repository's
own test suite (a divide operation tested with before=[4, 2],
after=[7], whose real result stack is [2]), TestCase.execute raises
TypeError - because functest._oops_it constructs
FunctionProgrammingError with the keyword argument `operation`, which
oops.py's __init__ does not accept - and that TypeError is not an
instance of ProgrammingError. -/
theorem C3_selftest_bug :
    (TestCase.mk [.dec ⟨4, 0⟩, .dec ⟨2, 0⟩] (some [.dec ⟨7, 0⟩]) none false).executeCase
        divideOp HistoricalStack.initial =
      .error (raise0 (fpeCallSite "failed a self-test: Expected the after stack, but got a different final stack")) ∧
    isInstance (fpeCallSite "") .programmingError = false := by
  decide

/-- Claim C5, counterexample: a retaining operation with popCount 1 and
pushCount 1 executed on a full (12-item) stack passes the pre-check
(which reserves push - pop = 0 spaces), returns successfully, and yet
its returned value was silently discarded - the engine is completely
unchanged, so nothing was pushed. -/
theorem C5_retain_discard_counterexample :
    (retainOp.execute HistoricalStack.initial ssFull Registry.initial).2.1 = .ok () ∧
    (retainOp.execute HistoricalStack.initial ssFull Registry.initial).2.2 = ssFull := by
  decide

/-- Helper for C5: a successful enter_number preserves the number of
stack items (finishing an entry replaces the item in place). -/
theorem enter_number_ok_length (hs : HistoricalStack) (ss : StackState) (ro : Option String)
    (hsE : HistoricalStack) (b : Bool) (ssE : StackState)
    (h : StackState.enter_number hs ss ro = (hsE, .ok b, ssE)) :
    ssE.s.length = ss.s.length := by
  unfold StackState.enter_number at h
  by_cases hed : ss.editing_last_item = true
  · rw [if_pos hed] at h
    rcases hpi : pyIndex ss.s.length ss.stack_posn with _ | i <;> rw [hpi] at h
    · simp at h
    · dsimp only at h
      rcases hg : ss.s.get? i with _ | si <;> rw [hg] at h
      · simp at h
      · dsimp only at h
        rcases hf : si.finish_entry with ⟨fb, si2⟩
        rw [hf] at h
        cases fb
        · simp at h
        · simp only [Prod.mk.injEq, Except.ok.injEq] at h
          rw [← h.2.2]
          simp [List.length_set]
  · rw [if_neg hed] at h
    simp only [Prod.mk.injEq, Except.ok.injEq] at h
    rw [← h.2.2]

/-- Helper for C5: the shape of a successful non-retaining pop. -/
theorem pop_some_shape (ss : StackState) (n : Nat) (args : List StackItem) (ss1 : StackState)
    (h : ss.pop n false = (some args, ss1)) :
    n ≤ ss.s.length ∧ ss1.s.length = ss.s.length - n := by
  unfold StackState.pop at h
  simp only [Bool.false_eq_true, not_false_eq_true, if_true] at h
  by_cases hlt : ss.s.length < n
  · simp [hlt] at h
  · refine ⟨by omega, ?_⟩
    rw [if_neg hlt] at h
    by_cases hn : n = 0
    · subst hn
      rw [if_pos rfl] at h
      simp only [Prod.mk.injEq, Option.some.injEq] at h
      rw [← h.2]
      simp
    · rw [if_neg hn] at h
      simp only [Prod.mk.injEq, Option.some.injEq] at h
      rw [← h.2]
      simp [List.length_take]

/-- Helper for C5: a push with enough space appends exactly the given
values. -/
theorem push_success_s (ss : StackState) (vals : List PushArg) (d : Option String)
    (hsp : ss.has_push_space ((vals.length : Nat) : Int) = true) :
    ((ss.push vals d).2).s = ss.s ++ vals.map pushArgItem := by
  unfold StackState.push
  rw [if_neg (by simp [hsp])]
  cases d <;> rfl

/-- Helper for C5: a successful argument retrieval of a pop >= 0,
non-retaining operation passed the push-space pre-check and shrank the
stack by exactly the popped count. -/
theorem retrieve_ok_shape (op : EscOperation) (hs : HistoricalStack) (ss : StackState)
    (hs1 : HistoricalStack) (args : List StackItem) (ss1 : StackState)
    (hpop : 0 ≤ op.pop) (hret : op.retain = false)
    (h : op.retrieve_arguments hs ss = (hs1, .ok args, ss1)) :
    ∃ ssE : StackState,
      ssE.has_push_space (op.push - op.pop) = true ∧
      op.pop.toNat ≤ ssE.s.length ∧
      ss1.s.length = ssE.s.length - op.pop.toNat := by
  unfold EscOperation.retrieve_arguments at h
  rcases hEn : StackState.enter_number hs ss (some op.key) with ⟨hsE, er, ssE⟩
  rw [hEn] at h
  cases er with
  | error e => cases e <;> simp at h
  | ok b =>
    dsimp only at h
    have hne : op.pop ≠ -1 := by omega
    by_cases hspace : ssE.has_push_space (op.push - op.pop) = true
    · rw [if_neg (by simp [hspace]), if_neg hne, hret] at h
      rcases hP : ssE.pop op.pop.toNat false with ⟨popres, ssP⟩
      rw [hP] at h
      cases popres with
      | none => simp at h
      | some args2 =>
        dsimp only at h
        by_cases hie : args2.isEmpty = true ∧ op.pop ≠ 0
        · rw [if_pos hie] at h
          simp at h
        · rw [if_neg hie] at h
          simp only [Prod.mk.injEq, Except.ok.injEq] at h
          obtain ⟨hle, hlen⟩ := pop_some_shape ssE op.pop.toNat args2 ssP hP
          exact ⟨ssE, hspace, hle, by rw [← h.2.2]; exact hlen⟩
    · rw [if_pos ⟨by simp [hspace], hne⟩] at h
      simp at h

/-- Helper for C5: result of the too-full pre-check when no entry is
being edited - a FunctionExecutionError naming the shortfall, with the
engine rolled back unchanged. -/
theorem execute_too_full (op : EscOperation) (hs : HistoricalStack) (ss : StackState)
    (rg : Registry) (hpop : 0 ≤ op.pop) (hed : ss.editing_last_item = false)
    (hfull : ss.has_push_space (op.push - op.pop) = false) :
    (op.execute hs ss rg).2.1 = .error (raise0 (.functionExecution (tooFullMsg op ss))) ∧
    (op.execute hs ss rg).2.2 = ss := by
  have hne : op.pop ≠ -1 := by omega
  have hen : StackState.enter_number hs ss (some op.key)
      = (hs.checkpoint_stack ss, .ok false, ss) := by
    unfold StackState.enter_number
    rw [if_neg (by simp [hed])]
  have hra : op.retrieve_arguments hs ss
      = (hs.checkpoint_stack ss, .error (raise0 (.functionExecution (tooFullMsg op ss))), ss) := by
    unfold EscOperation.retrieve_arguments
    rw [hen]
    dsimp only
    rw [if_pos ⟨by simp [hfull], hne⟩]
  have hb : op.executeBody hs ss rg
      = (hs.checkpoint_stack ss, .error (raise0 (.functionExecution (tooFullMsg op ss)))) := by
    unfold EscOperation.executeBody
    rw [hra]
  unfold EscOperation.execute
  rw [hb]
  exact ⟨rfl, rfl⟩

/-- Helper for C5: when execute succeeds for a pop >= 0, push > 0,
non-retaining operation whose coerced results number exactly pushCount,
and no RollbackTransaction was raised in the body, the coerced results
really were appended to the stack. -/
theorem execute_ok_pushes (op : EscOperation) (hs : HistoricalStack) (ss : StackState)
    (rg : Registry) (hpop : 0 ≤ op.pop) (hpush : 0 < op.push) (hret : op.retain = false)
    (hcoerce : ∀ args rv, op.function args rg = .ok rv →
        ∃ ds, decimalizeRetVals (toRetList rv) = .ok ds ∧ (ds.length : Int) = op.push)
    (hnrb : ∀ hs2 r, op.executeBody hs ss rg = (hs2, .error r) →
        ∀ sm, r.top ≠ .rollbackTransaction sm)
    (hok : (op.execute hs ss rg).2.1 = .ok ()) :
    ∃ args rv ds rest,
      op.function args rg = .ok rv ∧
      decimalizeRetVals (toRetList rv) = .ok ds ∧
      (op.execute hs ss rg).2.2.s = rest ++ ds.map StackItem.initFull := by
  unfold EscOperation.execute at hok ⊢
  rcases hB : op.executeBody hs ss rg with ⟨hs2, bres⟩
  rw [hB] at hok
  cases bres with
  | error r =>
      dsimp only at hok
      rcases hT : r.top with _ | _ | _ | _ | _ | _ | _ | _ | _ | sm | _ <;>
        rw [hT] at hok <;> first
          | exact absurd hT (hnrb hs2 r hB sm)
          | simp at hok
  | ok ssNew =>
      clear hok
      dsimp only
      revert hB
      unfold EscOperation.executeBody
      rcases hR : op.retrieve_arguments hs ss with ⟨hs1, rres, ss1⟩
      cases rres with
      | error e => intro hB; simp at hB
      | ok args =>
        dsimp only
        rcases hF : op.function args rg with e | rv
        · rcases e with ⟨t, ctx⟩
          cases t <;> intro hB <;> simp at hB
        · obtain ⟨ds, hds, hdlen⟩ := hcoerce args rv hF
          obtain ⟨ssE, hspace, hle, hlen⟩ :=
            retrieve_ok_shape op hs ss hs1 args ss1 hpop hret hR
          have hpushOk : ss1.has_push_space ((ds.length : Nat) : Int) = true := by
            unfold StackState.has_push_space at hspace ⊢
            rw [decide_eq_true_iff] at hspace ⊢
            have h1 : ((op.pop.toNat : Nat) : Int) = op.pop := Int.toNat_of_nonneg hpop
            omega
          unfold EscOperation.store_results
          dsimp only
          rw [if_pos (Or.inl hpush), hds]
          rcases hD : op.describe_operation args (toRetList rv) rg with e2 | desc
          · intro hB; simp at hB
          · intro hB
            simp only [Prod.mk.injEq, Except.ok.injEq] at hB
            refine ⟨args, rv, ds, ss1.s, hF, hds, ?_⟩
            rw [← hB.2]
            have hps := push_success_s ss1 (ds.map PushArg.dec) desc
              (by rw [List.length_map]; exact hpushOk)
            rw [hps]
            congr 1
            rw [List.map_map]
            rfl

/-- Claim C5, amended: for an operation with popCount >= 0, execute()
verifies before invoking the bound function that the stack will have
room for the net stack change (pushCount - popCount), raising a
'stack is too full' execution error and changing nothing when it will
not; consequently, whenever execute() of an operation with positive
pushCount and retainFlag unset returns successfully - with no
RollbackTransaction raised in the transaction body, and the function
returning exactly pushCount Decimal-coercible values - those values
really were pushed onto the stack.  (With retainFlag set the pre-check
reserves only the net change, and the results of a successful execution
can be silently discarded; see the counterexample.) -/
theorem C5_result_space_amended (op : EscOperation) (hs₁ hs₂ : HistoricalStack)
    (ss₁ ss₂ : StackState) (rg : Registry)
    (hpop : 0 ≤ op.pop) (hpush : 0 < op.push) (hretain : op.retain = false)
    (hed : ss₁.editing_last_item = false)
    (hfull : ss₁.has_push_space (op.push - op.pop) = false)
    (hcoerce : ∀ args rv, op.function args rg = .ok rv →
        ∃ ds, decimalizeRetVals (toRetList rv) = .ok ds ∧ (ds.length : Int) = op.push)
    (hnrb : ∀ hsx r, op.executeBody hs₂ ss₂ rg = (hsx, .error r) →
        ∀ sm, r.top ≠ .rollbackTransaction sm)
    (hok : (op.execute hs₂ ss₂ rg).2.1 = .ok ()) :
    ((op.execute hs₁ ss₁ rg).2.1
        = .error (raise0 (.functionExecution (tooFullMsg op ss₁))) ∧
      (op.execute hs₁ ss₁ rg).2.2 = ss₁) ∧
    ∃ args rv ds rest,
      op.function args rg = .ok rv ∧
      decimalizeRetVals (toRetList rv) = .ok ds ∧
      (op.execute hs₂ ss₂ rg).2.2.s = rest ++ ds.map StackItem.initFull :=
  ⟨execute_too_full op hs₁ ss₁ rg hpop hed hfull,
   execute_ok_pushes op hs₂ ss₂ rg hpop hpush hretain hcoerce hnrb hok⟩

/-- Witness for C5_result_space_amended: the constant-five operation,
blocked on a full stack and successful on an empty one. -/
theorem C5_result_space_amended_witness :
    ssFull.has_push_space (constFiveOp.push - constFiveOp.pop) = false ∧
    (constFiveOp.execute HistoricalStack.initial StackState.initial Registry.initial).2.1 = .ok () ∧
    (((constFiveOp.execute HistoricalStack.initial ssFull Registry.initial).2.1
        = .error (raise0 (.functionExecution (tooFullMsg constFiveOp ssFull))) ∧
      (constFiveOp.execute HistoricalStack.initial ssFull Registry.initial).2.2 = ssFull) ∧
    ∃ args rv ds rest,
      constFiveOp.function args Registry.initial = .ok rv ∧
      decimalizeRetVals (toRetList rv) = .ok ds ∧
      (constFiveOp.execute HistoricalStack.initial StackState.initial Registry.initial).2.2.s
        = rest ++ ds.map StackItem.initFull) := by
  refine ⟨by decide, by decide, ?_⟩
  exact C5_result_space_amended constFiveOp HistoricalStack.initial HistoricalStack.initial
    ssFull StackState.initial Registry.initial (by decide) (by decide) rfl (by decide) (by decide)
    (fun args rv h => by
      have h1 := Except.ok.inj h
      rw [← h1]
      exact ⟨[⟨5, 0⟩], rfl, rfl⟩)
    (fun hsx r h sm => by
      have hT : (constFiveOp.executeBody HistoricalStack.initial StackState.initial
          Registry.initial).2.isOk = true := by decide
      rw [h] at hT
      simp [Except.isOk, Except.toBool] at hT)
    (by decide)

/-- Claim C10: TestCase.execute tests the after/raises conflict by
truthiness - a test case with after=[] (empty list) and a raises
expectation is not reported as contradictory but runs as a raises-only
test (succeeding when the operation raises a matching exception), and a
test case with neither after nor raises is not rejected but expects an
empty final stack (succeeding exactly when the run leaves the stack
empty). -/
theorem C10_testcase_truthiness (op₁ op₂ : EscOperation) (hs : HistoricalStack)
    (t : ExcType) (e : Raised)
    (h₁ : (op₁.execute hs (tcStartState []) Registry.initial).2.1 = .error e)
    (h₂ : recursiveExcInstance e t = true)
    (h₃ : (op₂.execute hs (tcStartState []) Registry.initial).2.1 = .ok ()) :
    (TestCase.mk [] (some []) (some t) false).executeCase op₁ hs = .ok () ∧
    ((TestCase.mk [] none none false).executeCase op₂ hs = .ok () ↔
      pyEqStacks ((op₂.execute hs (tcStartState []) Registry.initial).2.2).as_decimal []
        = true) := by
  constructor
  · unfold TestCase.executeCase
    rw [if_neg (by simp [truthyAfter])]
    dsimp only [decimalizeRetVals]
    rcases hE : op₁.execute hs (tcStartState []) Registry.initial with ⟨hsx, res, ssx⟩
    rw [hE] at h₁
    dsimp only at h₁
    subst h₁
    simp [h₂]
  · unfold TestCase.executeCase
    rw [if_neg (by simp [truthyAfter])]
    dsimp only [decimalizeRetVals]
    rcases hE : op₂.execute hs (tcStartState []) Registry.initial with ⟨hsx, res, ssx⟩
    rw [hE] at h₃
    dsimp only at h₃
    subst h₃
    cases hq : pyEqStacks ssx.as_decimal [] <;>
      simp [TestCase.equalCheck, hq]

/-- Witness for C10_testcase_truthiness: a zero-dividing operation for
the raises-only half and a no-op for the empty-after half. -/
theorem C10_testcase_truthiness_witness :
    recursiveExcInstance
        ⟨.functionExecution "Sorry, division by zero is against the law.", [.zeroDivisionError]⟩
        .zeroDivisionError = true ∧
    (TestCase.mk [] (some []) (some .zeroDivisionError) false).executeCase zeroDivOp
        HistoricalStack.initial = .ok () ∧
    ((TestCase.mk [] none none false).executeCase noopOp HistoricalStack.initial = .ok () ↔
      pyEqStacks ((noopOp.execute HistoricalStack.initial (tcStartState [])
          Registry.initial).2.2).as_decimal [] = true) := by
  refine ⟨by decide, ?_⟩
  exact C10_testcase_truthiness zeroDivOp noopOp HistoricalStack.initial .zeroDivisionError
    ⟨.functionExecution "Sorry, division by zero is against the law.", [.zeroDivisionError]⟩
    (by decide) (by decide) (by decide)

/-- Helper for C1: when the bound function always raises, the
transaction body always ends in an error (either from argument
retrieval or from the function call itself). -/
theorem executeBody_error_of_raising (op : EscOperation) (hs : HistoricalStack)
    (ss : StackState) (rg : Registry)
    (hf : ∀ args, ∃ e, op.function args rg = .error e) :
    ∃ hs2 r, op.executeBody hs ss rg = (hs2, .error r) := by
  unfold EscOperation.executeBody
  rcases h : op.retrieve_arguments hs ss with ⟨hs1, res, ss1⟩
  cases res with
  | error r => exact ⟨hs1, r, rfl⟩
  | ok args =>
      obtain ⟨e, he⟩ := hf args
      dsimp only
      rw [he]
      rcases e with ⟨t, ctx⟩
      cases t <;> exact ⟨hs1, _, rfl⟩

/-- Claim C1: transaction atomicity - for every operation whose bound
function raises an arbitrary exception, and every engine state, the
memento taken before execute() equals the memento after execute()
finishes (by re-raising, or by swallowing a RollbackTransaction): the
transaction scope restores the pre-call state on every failure path,
including one where a pending partial entry was finalized inside the
transaction before the failure. -/
theorem C1_transaction_atomicity (op : EscOperation) (hs : HistoricalStack)
    (ss : StackState) (rg : Registry)
    (hf : ∀ args, ∃ e, op.function args rg = .error e) :
    ((op.execute hs ss rg).2.2).memento = ss.memento := by
  obtain ⟨hs2, r, hb⟩ := executeBody_error_of_raising op hs ss rg hf
  unfold EscOperation.execute
  rw [hb]
  rcases r with ⟨t, ctx⟩
  cases t <;> rfl

/-- Witness for C1_transaction_atomicity: an operation whose function
always raises, executed on the full sample stack. -/
theorem C1_transaction_atomicity_witness :
    (∀ args, ∃ e, alwaysRaisesOp.function args Registry.initial = .error e) ∧
    ((alwaysRaisesOp.execute HistoricalStack.initial ssFull Registry.initial).2.2).memento
      = ssFull.memento :=
  ⟨fun _ => ⟨raise0 .otherExc, rfl⟩,
   C1_transaction_atomicity alwaysRaisesOp HistoricalStack.initial ssFull Registry.initial
     (fun _ => ⟨raise0 .otherExc, rfl⟩)⟩

/-- Claim C7: history round-trip - whenever undo(engine) succeeds (the
undo list is non-empty), the immediately following redo(engine) returns
success and restores the engine to exactly the state it had before the
undo() call. -/
theorem C7_history_roundtrip (h : HistoricalStack) (ss : StackState)
    (hne : h.undo_stack ≠ []) :
    (h.undo ss).1 = true ∧
    ((h.undo ss).2.1.redo (h.undo ss).2.2).1 = true ∧
    ((h.undo ss).2.1.redo (h.undo ss).2.2).2.2 = ss := by
  unfold HistoricalStack.undo HistoricalStack.redo
  rcases hL : h.undo_stack.getLast? with _ | m
  · exact absurd (List.getLast?_eq_none_iff.mp hL) hne
  · simp [List.getLast?_concat, StackState.restore, StackState.memento]

/-- Witness for C7_history_roundtrip: one undo state, a distinct current
engine. -/
theorem C7_history_roundtrip_witness :
    (HistoricalStack.mk [StackState.initial] [] : HistoricalStack).undo_stack ≠ [] ∧
    (((HistoricalStack.mk [StackState.initial] []).undo ss8).2.1.redo
        ((HistoricalStack.mk [StackState.initial] []).undo ss8).2.2).2.2 = ss8 :=
  ⟨by decide,
   (C7_history_roundtrip (HistoricalStack.mk [StackState.initial] []) ss8 (by decide)).2.2⟩

/-- Claim C9: checkpoint_stack empties the redo list even when the
checkpoint is a no-op duplicate - when the undo top already equals the
engine's memento (Python ==), nothing is appended to the undo list, yet
a non-empty redo list is still destroyed. -/
theorem C9_checkpoint_clears_redo (h : HistoricalStack) (ss : StackState) (m : Memento)
    (hr : h.redo_stack ≠ []) (hm : h.undo_stack.getLast? = some m)
    (heq : m.pyEq ss.memento = true) :
    (h.checkpoint_stack ss).redo_stack = [] ∧
    (h.checkpoint_stack ss).undo_stack = h.undo_stack := by
  unfold HistoricalStack.checkpoint_stack
  rw [if_pos hr]
  simp [hm, heq, not_true_eq_false, if_false]

/-- Helper for C4: a single push preserves the capacity invariant. -/
theorem push_length_le (ss : StackState) (vals : List PushArg) (d : Option String)
    (h : ss.s.length ≤ STACKDEPTH) : ((ss.push vals d).2).s.length ≤ STACKDEPTH := by
  unfold StackState.push
  split
  · exact h
  · rename_i hsp
    rw [not_not] at hsp
    unfold StackState.has_push_space at hsp
    rw [decide_eq_true_iff] at hsp
    cases d <;> simp [StackState.record_operation] <;> omega

/-- Helper for C4: every sequence of pushes preserves the capacity
invariant. -/
theorem pushSeq_length_le (seq : List (List PushArg × Option String)) :
    ∀ ss : StackState, ss.s.length ≤ STACKDEPTH →
      (pushSeq ss seq).s.length ≤ STACKDEPTH := by
  induction seq with
  | nil => intro ss h; exact h
  | cons p rest ih =>
      rcases p with ⟨vals, d⟩
      intro ss h
      exact ih _ (push_length_le ss vals d h)

/-- Claim C4: capacity invariant - after every push in any sequence of
push(vals) calls from an empty engine, len(items) <= STACKDEPTH holds;
and a push whose values would exceed capacity returns False and leaves
every field of the engine identical to before the attempted push. -/
theorem C4_capacity_invariant (seq : List (List PushArg × Option String))
    (ss : StackState) (vals : List PushArg) (d : Option String)
    (hfull : ss.has_push_space (vals.length : Int) = false) :
    (pushSeq StackState.initial seq).s.length ≤ STACKDEPTH ∧
    ss.push vals d = (false, ss) := by
  refine ⟨pushSeq_length_le seq _ (by decide), ?_⟩
  unfold StackState.push
  rw [if_pos]
  simp [hfull]

/-- Witness for C4_capacity_invariant: two pushes of 6 and 6 items, and
an over-capacity push onto the full sample stack. -/
theorem C4_capacity_invariant_witness :
    ssFull.has_push_space ((1 : Nat) : Int) = false ∧
    (pushSeq StackState.initial
        [(List.replicate 6 (PushArg.dec ⟨1, 0⟩), none),
         (List.replicate 6 (PushArg.dec ⟨2, 0⟩), some "fill")]).s.length ≤ STACKDEPTH ∧
    ssFull.push [PushArg.dec ⟨3, 0⟩] none = (false, ssFull) := by
  refine ⟨by decide, ?_⟩
  have h := C4_capacity_invariant
    [(List.replicate 6 (PushArg.dec ⟨1, 0⟩), none),
     (List.replicate 6 (PushArg.dec ⟨2, 0⟩), some "fill")]
    ssFull [PushArg.dec ⟨3, 0⟩] none (by decide)
  exact h

/-- Helper for C6: the trailing slice of length two of an appended pair
is that pair. -/
theorem drop_len_sub_two {α : Type} (stack : List α) (a b : α) :
    (stack ++ [a, b]).drop ((stack ++ [a, b]).length - 2) = [a, b] := by
  have hL : (stack ++ [a, b]).length - 2 = stack.length := by simp
  rw [hL, List.drop_left]

/-- Claim C6: binding determinism - a two-parameter plugin function
f(sos, bos) executed over a stack whose last two entered items hold d
then e receives the keyword binding sos = d, bos = e (the first declared
parameter gets the deeper item of the trailing slice); the operation's
argument retrieval hands the wrapper exactly those two items; and
popCount is computed as the number of non-reserved parameters, or -1
when a variadic parameter is present. -/
theorem C6_binding_determinism (stack : List StackItem) (d e : Dec)
    (f : List BoundVal → List (String × BoundVal) → Except Raised FuncRet)
    (rg : Registry) :
    wrapper divideParms f (stack ++ [StackItem.initFull d, StackItem.initFull e]) rg
      = f [] [("sos", .dec (some d)), ("bos", .dec (some e))] ∧
    (divideOp.retrieve_arguments HistoricalStack.initial
        ⟨[StackItem.initFull d, StackItem.initFull e], [], 1, false⟩).2.1
      = .ok [StackItem.initFull d, StackItem.initFull e] ∧
    (∀ parms : List Parm,
      computedPop parms =
        if parms.any (fun p => p.kind == .varPositional) then -1
        else ((parms.filter fun p => !(p.name == "registry" || p.name == "testing")).length : Int)) := by
  refine ⟨?_, rfl, ?_⟩
  · unfold wrapper
    dsimp only
    rw [show (stackParmsOf divideParms).length = 2 from rfl, drop_len_sub_two]
    rfl
  · intro parms
    unfold computedPop bindAllOf stackParmsOf
    cases hA : parms.any (fun p => p.kind == .varPositional) with
    | false =>
        have hnil : List.filter (fun p => p.kind == ParmKind.varPositional) parms = [] := by
          rw [List.filter_eq_nil_iff]
          intro p hp
          simp only [List.any_eq_false] at hA
          exact hA p hp
        rw [if_pos hnil]
        simp
    | true =>
        have hne : List.filter (fun p => p.kind == ParmKind.varPositional) parms ≠ [] := by
          simp only [List.any_eq_true] at hA
          obtain ⟨p, hp, hk⟩ := hA
          intro hnil
          rw [List.filter_eq_nil_iff] at hnil
          exact hnil p hp hk
        rw [if_neg hne]
        simp

/-- Witness for C9_checkpoint_clears_redo: a duplicate checkpoint of the
initial engine with a pending redo state. -/
theorem C9_checkpoint_clears_redo_witness :
    (HistoricalStack.mk [StackState.initial] [ss8] : HistoricalStack).redo_stack ≠ [] ∧
    (HistoricalStack.mk [StackState.initial] [ss8]).undo_stack.getLast? = some StackState.initial ∧
    StackState.initial.pyEq StackState.initial.memento = true ∧
    ((HistoricalStack.mk [StackState.initial] [ss8]).checkpoint_stack StackState.initial).redo_stack = [] ∧
    ((HistoricalStack.mk [StackState.initial] [ss8]).checkpoint_stack StackState.initial).undo_stack
      = [StackState.initial] := by
  refine ⟨by decide, by decide, by decide, ?_⟩
  exact C9_checkpoint_clears_redo (HistoricalStack.mk [StackState.initial] [ss8])
    StackState.initial StackState.initial (by decide) (by decide) (by decide)

end Esc
